import Mathlib

/-!
Shallow embedding of the Kubernetes API reverse proxy of
`internal/proxy/proxy.go` (netmaker-k8s-ops): the identity mapping store,
the external mapping sync, the authentication middleware, the route
handling of `StartK8sProxy`, and the WireGuard interface locator.
Go maps become functions `String → Option _`; HTTP headers become
association lists with `Set`-semantics; the network and the external API
are oracles passed in as explicit parameters.
-/

namespace NetmakerProxy

/-- `models.UserMapping`: a user identity plus group memberships
(`User`, `Groups` fields of the Go struct). A Go `nil` slice is `[]`. -/
structure UserMapping where
  User : String
  Groups : List String
  deriving DecidableEq, Repr

/-- The `Mappings` field of `models.UserIPMap`: a Go
`map[string]models.UserMapping`, embedded extensionally as a function
from IP strings to optional mappings (Go maps are unordered, so the
function view is the faithful notion of store state). -/
abbrev Mappings : Type := String → Option UserMapping

/-- `NewUserIPMap`: the empty store (`make(map[string]models.UserMapping)`). -/
def NewUserIPMap : Mappings := fun _ => none

/-- `UserIPMapWithMutex.SetUserMapping`: upsert of `ip ↦ {user, groups}`
(`uim.UserIPMap.Mappings[ip] = models.UserMapping{User: user, Groups: groups}`). -/
def SetUserMapping (ip user : String) (groups : List String) (s : Mappings) : Mappings :=
  fun k => if k = ip then some ⟨user, groups⟩ else s k

/-- `UserIPMapWithMutex.GetUserMapping`: point lookup returning
`(user, groups, exists)`; on a miss Go returns `("", nil, false)`. -/
def GetUserMapping (s : Mappings) (ip : String) : String × List String × Bool :=
  match s ip with
  | some m => (m.User, m.Groups, true)
  | none => ("", [], false)

/-- `UserIPMapWithMutex.RemoveUserMapping`: `delete(uim.UserIPMap.Mappings, ip)`. -/
def RemoveUserMapping (ip : String) (s : Mappings) : Mappings :=
  fun k => if k = ip then none else s k

/-- `ExternalAPIConfig` (the `SyncInterval` is carried in seconds). -/
structure ExternalAPIConfig where
  ServerDomain : String
  APIToken : String
  SyncIntervalSeconds : Nat
  deriving DecidableEq, Repr

/-- Result of JSON-decoding the body of a 200 response from the external
API (`json.NewDecoder(resp.Body).Decode(&apiResponse)`): either a decode
error or the decoded `mappings` object, listed as (ip, mapping) pairs in
the (arbitrary) order Go map iteration visits them. -/
inductive BodyResult where
  | decodeErr (msg : String)
  | decoded (mappings : List (String × UserMapping))
  deriving DecidableEq, Repr

/-- Outcome of the outbound HTTP GET performed by
`fetchUserMappingsFromAPI`, supplied as an oracle: request construction
failure (`http.NewRequest`), transport failure (`client.Do`), or a
response with a status code and a body. -/
inductive FetchResponse where
  | reqBuildError (msg : String)
  | netError (msg : String)
  | response (status : Nat) (rawBody : String) (body : BodyResult)
  deriving DecidableEq, Repr

/-- The store-update loop at the end of `fetchUserMappingsFromAPI`:
`for ip, mapping := range apiResponse.Mappings { SetUserIPMapping(ip, mapping.User, mapping.Groups) }`. -/
def applyMappings (ms : List (String × UserMapping)) (s : Mappings) : Mappings :=
  ms.foldl (fun st p => SetUserMapping p.1 p.2.User p.2.Groups st) s

/-- `fetchUserMappingsFromAPI`: one fetch-and-merge. Returns the Go
error (as `Option String`, `none` = `nil`) together with the store after
the call. All error paths precede any store write. -/
def fetchUserMappingsFromAPI (config : ExternalAPIConfig) (resp : FetchResponse)
    (s : Mappings) : Option String × Mappings :=
  if config.ServerDomain = "" ∨ config.APIToken = "" then (none, s)
  else
    match resp with
    | .reqBuildError msg => (some ("failed to create request: " ++ msg), s)
    | .netError msg => (some ("failed to make request: " ++ msg), s)
    | .response status rawBody body =>
      if status ≠ 200 then
        (some ("API request failed with status " ++ toString status ++ ": " ++ rawBody), s)
      else
        match body with
        | .decodeErr msg => (some ("failed to decode response: " ++ msg), s)
        | .decoded ms => (none, applyMappings ms s)

/-- `startExternalAPISync`: if unconfigured, return at once (zero
fetches); otherwise perform the initial fetch and then one fetch per
ticker fire until cancellation after `ticks` fires. Fetch errors are
logged and swallowed, so only the store effect of each fetch remains.
Returns the final store and the number of fetches performed. -/
def startExternalAPISync (config : ExternalAPIConfig) (oracle : Nat → FetchResponse)
    (ticks : Nat) (s : Mappings) : Mappings × Nat :=
  if config.ServerDomain = "" ∨ config.APIToken = "" then (s, 0)
  else
    ((List.range (ticks + 1)).foldl
      (fun st i => (fetchUserMappingsFromAPI config (oracle i) st).2) s, ticks + 1)

/-- Last binding for a key in a payload list: the value the Go
`for … range` write loop leaves in the map for that key. -/
def lookupLast : List (String × UserMapping) → String → Option UserMapping
  | [], _ => none
  | q :: rest, k =>
    match lookupLast rest k with
    | some m => some m
    | none => if q.1 = k then some q.2 else none

/-! ### HTTP headers

`net/http` request headers, restricted to what the middleware touches:
an association list where `Header.Set` replaces the binding for the name
and `Header.Get` returns the (first) binding's value. Header names are
compared verbatim (the Go canonicalisation is injective on the literal
names used by this program, so nothing is lost). -/

/-- Request headers as an association list of (name, value). -/
abbrev Headers : Type := List (String × String)

/-- `req.Header.Set(name, v)`: replace any binding of `name` by `v`. -/
def setHeader (name v : String) (h : Headers) : Headers :=
  (name, v) :: List.filter (fun p => p.1 ≠ name) h

/-- `req.Header.Get(name)`-style lookup returning `none` when absent. -/
def getHeader (name : String) : Headers → Option String
  | [] => none
  | p :: rest => if p.1 = name then some p.2 else getHeader name rest

/-- `c.GetHeader(name)`: Go returns the empty string when absent. -/
def getHeaderD (name : String) (h : Headers) : String :=
  (getHeader name h).getD ""

/-! ### The interface locator (`getWireGuardInterfaceIP`) -/

/-- One address reported for an interface: whether the `*net.IPNet`
type assertion succeeds, the `ip.To4() != nil` / `ip.IsLoopback()` /
`ip.IsUnspecified()` predicates, and `ip.String()`. -/
structure NetAddr where
  isIPNet : Bool
  isIPv4 : Bool
  isLoopback : Bool
  isUnspecified : Bool
  str : String
  deriving DecidableEq, Repr

/-- One entry of `net.Interfaces()`: its name and its addresses. -/
structure NetInterface where
  Name : String
  addrs : List NetAddr
  deriving DecidableEq, Repr

/-- The address filter of the inner loop: IPNet, IPv4, not loopback,
not unspecified. -/
def validAddr (a : NetAddr) : Bool :=
  a.isIPNet && a.isIPv4 && !a.isLoopback && !a.isUnspecified

/-- One attempt of the outer retry loop: scan the interfaces in order,
and for each one whose name equals `interfaceName` return the first
valid IPv4 address, continuing to later interfaces when a matching
interface has none. -/
def findIPInAttempt (interfaceName : String) (ifaces : List NetInterface) : Option String :=
  (List.filter (fun i => i.Name = interfaceName) ifaces).findSome?
    (fun i => (List.find? validAddr i.addrs).map NetAddr.str)

/-- The retry loop of `getWireGuardInterfaceIP`, parametrised by an
enumeration oracle `enum` (the interfaces `net.Interfaces()` reports on
each attempt, indexed 1-based). `rem` is the number of attempts still
allowed (including the current one), `attempt` the 1-based index of the
current attempt. Returns the result string, the number of attempts
performed, and the list of sleeps taken (each
`min(baseDelay * attempt, maxDelay)`, only between attempts). -/
def locateGo (enum : Nat → List NetInterface) (interfaceName : String)
    (baseDelay maxDelay : Nat) : Nat → Nat → String × Nat × List Nat
  | 0, attempt => ("", attempt - 1, [])
  | rem + 1, attempt =>
    match findIPInAttempt interfaceName (enum attempt) with
    | some ip => (ip, attempt, [])
    | none =>
      let r := locateGo enum interfaceName baseDelay maxDelay rem (attempt + 1)
      (r.1, r.2.1, (if rem = 0 then [] else [min (baseDelay * attempt) maxDelay]) ++ r.2.2)

/-- `getWireGuardInterfaceIP`: run the retry loop from attempt 1 with
`maxRetries` attempts allowed. Interface enumeration is total here
(no `net.Interfaces()` error), matching every run in which the host can
be enumerated. -/
def getWireGuardInterfaceIP (enum : Nat → List NetInterface) (interfaceName : String)
    (maxRetries baseDelay maxDelay : Nat) : String × Nat × List Nat :=
  locateGo enum interfaceName baseDelay maxDelay maxRetries 1

/-! ### Base64 (for `Request.SetBasicAuth`)

`net/http`'s `SetBasicAuth` sets
`Authorization: Basic base64(username + ":" + password)` with the
standard RFC 4648 alphabet and padding. -/

/-- The standard base64 alphabet. -/
def b64Char (n : Nat) : Char :=
  (("ABCDEFGHIJKLMNOPQRSTUVWXYZabcdefghijklmnopqrstuvwxyz0123456789+/").toList).getD n 'A'

/-- RFC 4648 standard encoding with padding, over byte values. -/
def base64EncodeBytes : List Nat → List Char
  | [] => []
  | [b1] => [b64Char (b1 / 4), b64Char (b1 % 4 * 16), '=', '=']
  | [b1, b2] => [b64Char (b1 / 4), b64Char (b1 % 4 * 16 + b2 / 16), b64Char (b2 % 16 * 4), '=']
  | b1 :: b2 :: b3 :: rest =>
    [b64Char (b1 / 4), b64Char (b1 % 4 * 16 + b2 / 16),
     b64Char (b2 % 16 * 4 + b3 / 64), b64Char (b3 % 64)] ++ base64EncodeBytes rest

/-- `base64.StdEncoding.EncodeToString([]byte(s))`: standard base64 of
the UTF-8 bytes of `s`. -/
def base64Encode (s : String) : String :=
  String.mk (base64EncodeBytes ((s.data.flatMap String.utf8EncodeChar).map UInt8.toNat))

/-! ### The authentication middleware (`createAuthMiddleware`) -/

/-- `ProxyMode` is a Go string type; only `"auth"` and `"noauth"` are
recognised constants. -/
def AuthMode : String := "auth"

/-- The `noauth` constant of `ProxyMode`. -/
def NoAuthMode : String := "noauth"

/-- `ProxyConfig` (the `Mode` stays a string so that unrecognised values
are representable, exactly as in Go). -/
structure ProxyConfig where
  Mode : String
  ImpersonateUser : String
  ImpersonateGroups : List String
  deriving DecidableEq, Repr

/-- The fields of `rest.Config` the middleware consults to authenticate
the proxy itself against the API server. -/
structure RestConfig where
  BearerToken : String
  CertFile : String
  KeyFile : String
  Username : String
  Password : String
  deriving DecidableEq, Repr

/-- Outcome of the middleware on one request: `abort status` models
`c.JSON(status, …); c.Abort(); return` (the chain stops, nothing is
forwarded), `forward h` models falling through to `c.Next()` with the
request headers mutated to `h`. -/
inductive MWResult where
  | abort (status : Nat)
  | forward (headers : Headers)
  deriving DecidableEq, Repr

/-- Whether the middleware fell through to `c.Next()`. -/
def MWResult.isForward : MWResult → Bool
  | .abort _ => false
  | .forward _ => true

/-- The headers the middleware forwards (junk value on abort). -/
def MWResult.forwardedHeaders : MWResult → Headers
  | .abort _ => []
  | .forward h => h

/-- The credential-attachment tail of `createAuthMiddleware` (lines
608–632): bearer token, else client-cert pair (transport-level, no
header), else basic auth, else require an inbound `Authorization`
header or answer 401; finally the fixed `User-Agent` override. -/
def attachUpstreamCredentials (config : RestConfig) (h : Headers) : MWResult :=
  if config.BearerToken ≠ "" then
    .forward (setHeader "User-Agent" "netmaker-k8s-proxy/1.0"
      (setHeader "Authorization" ("Bearer " ++ config.BearerToken) h))
  else if config.CertFile ≠ "" ∧ config.KeyFile ≠ "" then
    .forward (setHeader "User-Agent" "netmaker-k8s-proxy/1.0" h)
  else if config.Username ≠ "" ∧ config.Password ≠ "" then
    .forward (setHeader "User-Agent" "netmaker-k8s-proxy/1.0"
      (setHeader "Authorization"
        ("Basic " ++ base64Encode (config.Username ++ ":" ++ config.Password)) h))
  else if getHeaderD "Authorization" h = "" then
    .abort 401
  else
    .forward (setHeader "User-Agent" "netmaker-k8s-proxy/1.0" h)

/-- The identity resolution of the `AuthMode` branch: the mapped user
and groups when `GetUserMapping` finds the client IP, the configured
defaults otherwise. -/
def resolveIdentity (proxyConfig : ProxyConfig) (store : Mappings)
    (clientIP : String) : String × List String :=
  match store clientIP with
  | some m => (m.User, m.Groups)
  | none => (proxyConfig.ImpersonateUser, proxyConfig.ImpersonateGroups)

/-- `if impersonateUser != "" { c.Request.Header.Set("Impersonate-User", impersonateUser) }`. -/
def setUserHeader (impersonateUser : String) (h : Headers) : Headers :=
  if impersonateUser ≠ "" then setHeader "Impersonate-User" impersonateUser h else h

/-- `if len(impersonateGroups) > 0 { c.Request.Header.Set("Impersonate-Group", strings.Join(impersonateGroups, ",")) }`. -/
def setGroupHeader (impersonateGroups : List String) (h : Headers) : Headers :=
  if impersonateGroups.length > 0 then
    setHeader "Impersonate-Group" (String.intercalate "," impersonateGroups) h
  else h

/-- The impersonation-header block of the `AuthMode` branch (lines
563–597): resolve the identity from the store or the configured
defaults, set `Impersonate-User` / `Impersonate-Group` only when
non-empty, then the two unconditional audit headers. -/
def setImpersonationHeaders (proxyConfig : ProxyConfig) (store : Mappings)
    (clientIP : String) (h : Headers) : Headers :=
  setHeader "Impersonate-Extra-Original-Group" "wireguard-peers"
    (setHeader "Impersonate-Extra-Original-User" clientIP
      (setGroupHeader (resolveIdentity proxyConfig store clientIP).2
        (setUserHeader (resolveIdentity proxyConfig store clientIP).1 h)))

/-- `createAuthMiddleware`: the per-request middleware body. The switch
on `proxyConfig.Mode` either passes through (`noauth`), injects
impersonation headers (`auth`), or answers 500 and aborts; the
credential-attachment tail then runs on the non-aborting paths. -/
def createAuthMiddleware (config : RestConfig) (proxyConfig : ProxyConfig)
    (store : Mappings) (clientIP : String) (h : Headers) : MWResult :=
  if proxyConfig.Mode = NoAuthMode then
    attachUpstreamCredentials config h
  else if proxyConfig.Mode = AuthMode then
    attachUpstreamCredentials config (setImpersonationHeaders proxyConfig store clientIP h)
  else
    .abort 500

/-! ### Route handling (`StartK8sProxy`) -/

/-- The four proxied routes registered on the gin router. -/
inductive Route where
  | api
  | apis
  | version
  | metrics
  deriving DecidableEq, Repr

/-- The three CORS headers set by the OPTIONS short-circuit, applied to
the (empty) response-header set. -/
def corsHeaders (h : Headers) : Headers :=
  setHeader "Access-Control-Allow-Headers" "Content-Type, Authorization"
    (setHeader "Access-Control-Allow-Methods" "GET, POST, PUT, DELETE, OPTIONS"
      (setHeader "Access-Control-Allow-Origin" "*" h))

/-- Outcome of one request against the proxy router: an error response
written by the middleware (`errorResponse`), the OPTIONS short-circuit
(`corsOK` carries the response headers and the — empty — body written
by `c.Status(http.StatusOK)`), or hand-off to `proxy.ServeHTTP` with
the mutated request headers (`forwarded`). -/
inductive PipelineOutcome where
  | errorResponse (status : Nat)
  | corsOK (respHeaders : Headers) (body : String)
  | forwarded (reqHeaders : Headers)
  deriving DecidableEq, Repr

/-- Whether the request reached `proxy.ServeHTTP`. -/
def PipelineOutcome.isForwarded : PipelineOutcome → Bool
  | .forwarded _ => true
  | _ => false

/-- One request through the router of `StartK8sProxy`: the global
middleware runs first; the `/api/*path` and `/apis/*path` handlers
short-circuit OPTIONS with CORS headers and status 200, every other
(route, method) pair reaches `proxy.ServeHTTP`. -/
def handleRequest (config : RestConfig) (proxyConfig : ProxyConfig) (store : Mappings)
    (route : Route) (method clientIP : String) (h : Headers) : PipelineOutcome :=
  match createAuthMiddleware config proxyConfig store clientIP h with
  | .abort status => .errorResponse status
  | .forward h' =>
    match route with
    | .api | .apis =>
      if method = "OPTIONS" then .corsOK (corsHeaders []) "" else .forwarded h'
    | .version | .metrics => .forwarded h'

/-! ## Helper lemmas -/

theorem getHeader_setHeader_self (n v : String) (h : Headers) :
    getHeader n (setHeader n v h) = some v := by
  simp [getHeader, setHeader]

theorem getHeader_filter_ne (m n : String) (hne : m ≠ n) (h : Headers) :
    getHeader m (List.filter (fun p => p.1 ≠ n) h) = getHeader m h := by
  induction h with
  | nil => rfl
  | cons q t ih =>
    rw [List.filter_cons]
    by_cases hqn : q.1 = n
    · rw [if_neg (by simp [hqn]), ih]
      have hqm : ¬q.1 = m := by rw [hqn]; exact Ne.symm hne
      show _ = getHeader m (q :: t)
      simp only [getHeader, hqm, if_neg, ite_false]
    · rw [if_pos (by simp [hqn])]
      show getHeader m (q :: List.filter (fun p => decide (p.1 ≠ n)) t) = getHeader m (q :: t)
      simp only [getHeader]
      rw [ih]

theorem getHeader_setHeader_ne (m n v : String) (hne : m ≠ n) (h : Headers) :
    getHeader m (setHeader n v h) = getHeader m h := by
  show getHeader m ((n, v) :: List.filter (fun p => decide (p.1 ≠ n)) h) = getHeader m h
  simp only [getHeader]
  rw [if_neg (Ne.symm hne)]
  exact getHeader_filter_ne m n hne h

theorem lookupLast_eq_none_of_not_mem (p : List (String × UserMapping)) (k : String)
    (hk : k ∉ p.map Prod.fst) : lookupLast p k = none := by
  induction p with
  | nil => rfl
  | cons q rest ih =>
    simp only [List.map_cons, List.mem_cons, not_or] at hk
    rw [lookupLast, ih hk.2]
    have hq : ¬q.1 = k := fun hcontr => hk.1 (Eq.symm hcontr)
    simp [hq]

theorem lookupLast_mem_of_isSome (p : List (String × UserMapping)) (k : String)
    (hk : (lookupLast p k).isSome = true) : k ∈ p.map Prod.fst := by
  by_contra hmem
  rw [lookupLast_eq_none_of_not_mem p k hmem] at hk
  simp at hk

theorem applyMappings_apply (p : List (String × UserMapping)) (s : Mappings) (k : String) :
    applyMappings p s k =
      match lookupLast p k with
      | some m => some m
      | none => s k := by
  induction p generalizing s with
  | nil => rfl
  | cons q rest ih =>
    show applyMappings rest (SetUserMapping q.1 q.2.User q.2.Groups s) k = _
    rw [ih]
    cases hl : lookupLast rest k with
    | some m => simp [lookupLast, hl]
    | none =>
      simp only [lookupLast, hl]
      by_cases hk : q.1 = k
      · rw [if_pos hk]
        show (if k = q.1 then some ⟨q.2.User, q.2.Groups⟩ else s k) = some q.2
        rw [if_pos (Eq.symm hk)]
      · rw [if_neg hk]
        show (if k = q.1 then some ⟨q.2.User, q.2.Groups⟩ else s k) = s k
        rw [if_neg (fun hcontr => hk (Eq.symm hcontr))]

theorem lookupLast_append (A B : List (String × UserMapping)) (k : String) :
    lookupLast (A ++ B) k =
      match lookupLast B k with
      | some m => some m
      | none => lookupLast A k := by
  induction A with
  | nil => cases hb : lookupLast B k <;> simp [lookupLast, hb]
  | cons q rest ih =>
    rw [List.cons_append]
    show (match lookupLast (rest ++ B) k with
      | some m => some m
      | none => if q.1 = k then some q.2 else none) = _
    rw [ih]
    cases hb : lookupLast B k with
    | some m => simp [lookupLast]
    | none =>
      show (match lookupLast rest k with
        | some m => some m
        | none => if q.1 = k then some q.2 else none) = _
      rw [lookupLast]

theorem lookupLast_eq_lookup (p : List (String × UserMapping)) (k : String)
    (hnd : (p.map Prod.fst).Nodup) : lookupLast p k = List.lookup k p := by
  induction p with
  | nil => rfl
  | cons q rest ih =>
    simp only [List.map_cons, List.nodup_cons] at hnd
    by_cases hk : k = q.1
    · have hrest : lookupLast rest k = none := by
        apply lookupLast_eq_none_of_not_mem
        rw [hk]; exact hnd.1
      rw [hk] at hrest
      simp [lookupLast, hrest, List.lookup, hk]
    · have hq : ¬q.1 = k := fun hcontr => hk (Eq.symm hcontr)
      have hbeq : (k == q.1) = false := by simp [hk]
      simp only [lookupLast, List.lookup]
      rw [hbeq, ← ih hnd.2]
      cases hr : lookupLast rest k with
      | some m => simp [hr]
      | none => simp [hr, hq]

/-! ## C6: Identity Mapping Store round-trip laws -/

/-- C6: for every IP `k`, user `u` and groups `g`, `get` immediately
after `set(k,u,g)` returns `(u,g,true)`; `get` immediately after
`remove(k)` reports `found = false`; and `remove(k)` on a store without
an entry for `k` is a no-op that leaves the store unchanged. -/
theorem store_roundtrip_laws :
    (∀ (ip user : String) (groups : List String) (s : Mappings),
      GetUserMapping (SetUserMapping ip user groups s) ip = (user, groups, true))
    ∧ (∀ (ip : String) (s : Mappings),
      (GetUserMapping (RemoveUserMapping ip s) ip).2.2 = false)
    ∧ (∀ (ip : String) (s : Mappings), s ip = none → RemoveUserMapping ip s = s) := by
  refine ⟨?_, ?_, ?_⟩
  · intro ip user groups s
    simp [GetUserMapping, SetUserMapping]
  · intro ip s
    simp [GetUserMapping, RemoveUserMapping]
  · intro ip s hnone
    funext k
    by_cases hk : k = ip
    · rw [hk]; simp [RemoveUserMapping, hnone.symm]
    · simp [RemoveUserMapping, hk]

/-- Witness for C6: the no-op law applied to the empty store. -/
theorem store_roundtrip_laws_witness :
    RemoveUserMapping "10.0.0.1" NewUserIPMap = NewUserIPMap :=
  store_roundtrip_laws.2.2 "10.0.0.1" NewUserIPMap rfl

/-! ## C4: external-sync merge laws -/

/-- C4: the fetch-and-merge of `fetchUserMappingsFromAPI` is idempotent
(applying a payload twice equals applying it once); for payloads with
disjoint (duplicate-free) IP sets the two fetches commute and produce
the union of both payloads over the prior store; and a store entry
whose IP is absent from the payload is never removed or altered. -/
theorem fetch_merge_laws :
    (∀ (p : List (String × UserMapping)) (s : Mappings),
      applyMappings p (applyMappings p s) = applyMappings p s)
    ∧ (∀ (A B : List (String × UserMapping)) (s : Mappings),
        (A.map Prod.fst).Nodup → (B.map Prod.fst).Nodup →
        (∀ k, k ∈ A.map Prod.fst → k ∉ B.map Prod.fst) →
        applyMappings B (applyMappings A s) = applyMappings A (applyMappings B s)
        ∧ ∀ k, applyMappings B (applyMappings A s) k =
            match List.lookup k (A ++ B) with
            | some m => some m
            | none => s k)
    ∧ (∀ (p : List (String × UserMapping)) (s : Mappings) (k : String),
        k ∉ p.map Prod.fst → applyMappings p s k = s k) := by
  refine ⟨?_, ?_, ?_⟩
  · intro p s
    funext k
    simp only [applyMappings_apply]
    cases hl : lookupLast p k <;> simp [hl]
  · intro A B s hndA hndB hdisj
    have hnone : ∀ k, (lookupLast A k).isSome → lookupLast B k = none := by
      intro k hA
      exact lookupLast_eq_none_of_not_mem B k (hdisj k (lookupLast_mem_of_isSome A k hA))
    constructor
    · funext k
      simp only [applyMappings_apply]
      cases ha : lookupLast A k with
      | some m =>
        have hb : lookupLast B k = none := hnone k (by rw [ha]; rfl)
        simp [ha, hb]
      | none => cases hb : lookupLast B k <;> simp [ha, hb]
    · intro k
      have hndAB : ((A ++ B).map Prod.fst).Nodup := by
        rw [List.map_append, List.nodup_append]
        exact ⟨hndA, hndB, fun a ha hb => hdisj a ha hb⟩
      simp only [applyMappings_apply]
      rw [← lookupLast_eq_lookup (A ++ B) k hndAB, lookupLast_append]
      cases ha : lookupLast A k with
      | some m =>
        have hb : lookupLast B k = none := hnone k (by rw [ha]; rfl)
        simp [ha, hb]
      | none => cases hb : lookupLast B k <;> simp [ha, hb]
  · intro p s k hk
    rw [applyMappings_apply, lookupLast_eq_none_of_not_mem p k hk]

/-- Witness for C4: merging two concrete disjoint payloads into the
empty store, evaluated at the key of the first payload. -/
theorem fetch_merge_laws_witness :
    applyMappings [("2.2.2.2", ⟨"bob", []⟩)]
        (applyMappings [("1.1.1.1", ⟨"alice", ["g1"]⟩)] NewUserIPMap) "1.1.1.1" =
      match List.lookup "1.1.1.1"
          ([("1.1.1.1", (⟨"alice", ["g1"]⟩ : UserMapping))] ++ [("2.2.2.2", ⟨"bob", []⟩)]) with
      | some m => some m
      | none => NewUserIPMap "1.1.1.1" :=
  (fetch_merge_laws.2.1 [("1.1.1.1", ⟨"alice", ["g1"]⟩)] [("2.2.2.2", ⟨"bob", []⟩)]
    NewUserIPMap (by decide) (by decide) (by decide)).2 "1.1.1.1"

/-! ## C9: empty sync configuration is a no-op -/

/-- C9: if `serverDomain` or `apiToken` is empty, one fetch returns no
error and leaves the store unchanged, and the periodic sync loop
returns immediately having performed zero fetches. -/
theorem empty_config_sync_noop (config : ExternalAPIConfig) (resp : FetchResponse)
    (oracle : Nat → FetchResponse) (ticks : Nat) (s : Mappings)
    (hempty : config.ServerDomain = "" ∨ config.APIToken = "") :
    fetchUserMappingsFromAPI config resp s = (none, s)
    ∧ startExternalAPISync config oracle ticks s = (s, 0) := by
  constructor
  · unfold fetchUserMappingsFromAPI
    rw [if_pos hempty]
  · unfold startExternalAPISync
    rw [if_pos hempty]

/-- Witness for C9: a config with an empty server domain. -/
theorem empty_config_sync_noop_witness :
    fetchUserMappingsFromAPI ⟨"", "token", 30⟩ (.netError "boom") NewUserIPMap =
      (none, NewUserIPMap)
    ∧ startExternalAPISync ⟨"", "token", 30⟩ (fun _ => .netError "boom") 5 NewUserIPMap =
      (NewUserIPMap, 0) :=
  empty_config_sync_noop ⟨"", "token", 30⟩ (.netError "boom")
    (fun _ => .netError "boom") 5 NewUserIPMap (Or.inl rfl)

/-! ## C10: fetch atomicity on failure -/

/-- C10: whenever one fetch returns an error — request construction
failure, network error, non-200 status, or JSON decode error — the
store after the call is exactly the store before it. -/
theorem fetch_atomic_on_error (config : ExternalAPIConfig) (resp : FetchResponse)
    (s : Mappings) (herr : (fetchUserMappingsFromAPI config resp s).1.isSome = true) :
    (fetchUserMappingsFromAPI config resp s).2 = s := by
  by_cases hc : config.ServerDomain = "" ∨ config.APIToken = ""
  · unfold fetchUserMappingsFromAPI at herr
    rw [if_pos hc] at herr
    simp at herr
  · cases resp with
    | reqBuildError msg =>
      unfold fetchUserMappingsFromAPI
      rw [if_neg hc]
    | netError msg =>
      unfold fetchUserMappingsFromAPI
      rw [if_neg hc]
    | response status raw body =>
      by_cases hs : status = 200
      · cases body with
        | decodeErr msg =>
          unfold fetchUserMappingsFromAPI
          rw [if_neg hc]
          simp [hs]
        | decoded ms =>
          unfold fetchUserMappingsFromAPI at herr
          rw [if_neg hc] at herr
          simp [hs] at herr
      · unfold fetchUserMappingsFromAPI
        rw [if_neg hc]
        simp [hs]

/-- Witness for C10: a network error leaves the store unchanged. -/
theorem fetch_atomic_on_error_witness :
    (fetchUserMappingsFromAPI ⟨"api.example.com", "token", 30⟩
      (.netError "connection refused") NewUserIPMap).2 = NewUserIPMap :=
  fetch_atomic_on_error ⟨"api.example.com", "token", 30⟩
    (.netError "connection refused") NewUserIPMap (by decide)

/-! ## Middleware lemmas -/

theorem attach_preserves_header (config : RestConfig) (h h' : Headers) (name : String)
    (hna : name ≠ "Authorization") (hnu : name ≠ "User-Agent")
    (hf : attachUpstreamCredentials config h = .forward h') :
    getHeader name h' = getHeader name h := by
  unfold attachUpstreamCredentials at hf
  split_ifs at hf
  · injection hf with hf
    subst hf
    rw [getHeader_setHeader_ne _ _ _ hnu, getHeader_setHeader_ne _ _ _ hna]
  · injection hf with hf
    subst hf
    rw [getHeader_setHeader_ne _ _ _ hnu]
  · injection hf with hf
    subst hf
    rw [getHeader_setHeader_ne _ _ _ hnu, getHeader_setHeader_ne _ _ _ hna]
  · injection hf with hf
    subst hf
    rw [getHeader_setHeader_ne _ _ _ hnu]

theorem setImpersonationHeaders_preserves (proxyConfig : ProxyConfig) (store : Mappings)
    (ip : String) (h : Headers) (name : String)
    (h1 : name ≠ "Impersonate-User") (h2 : name ≠ "Impersonate-Group")
    (h3 : name ≠ "Impersonate-Extra-Original-User")
    (h4 : name ≠ "Impersonate-Extra-Original-Group") :
    getHeader name (setImpersonationHeaders proxyConfig store ip h) = getHeader name h := by
  unfold setImpersonationHeaders setGroupHeader setUserHeader
  rw [getHeader_setHeader_ne _ _ _ h4, getHeader_setHeader_ne _ _ _ h3]
  by_cases hg : (resolveIdentity proxyConfig store ip).2.length > 0
  · rw [if_pos hg, getHeader_setHeader_ne _ _ _ h2]
    by_cases hu : (resolveIdentity proxyConfig store ip).1 ≠ ""
    · rw [if_pos hu, getHeader_setHeader_ne _ _ _ h1]
    · rw [if_neg hu]
  · rw [if_neg hg]
    by_cases hu : (resolveIdentity proxyConfig store ip).1 ≠ ""
    · rw [if_pos hu, getHeader_setHeader_ne _ _ _ h1]
    · rw [if_neg hu]

theorem getHeader_impUser (proxyConfig : ProxyConfig) (store : Mappings)
    (ip : String) (h : Headers) :
    getHeader "Impersonate-User" (setImpersonationHeaders proxyConfig store ip h) =
      if (resolveIdentity proxyConfig store ip).1 ≠ "" then
        some (resolveIdentity proxyConfig store ip).1
      else getHeader "Impersonate-User" h := by
  unfold setImpersonationHeaders setGroupHeader setUserHeader
  rw [getHeader_setHeader_ne _ _ _ (by decide), getHeader_setHeader_ne _ _ _ (by decide)]
  by_cases hg : (resolveIdentity proxyConfig store ip).2.length > 0
  · rw [if_pos hg, getHeader_setHeader_ne _ _ _ (by decide)]
    by_cases hu : (resolveIdentity proxyConfig store ip).1 ≠ ""
    · rw [if_pos hu, if_pos hu, getHeader_setHeader_self]
    · rw [if_neg hu, if_neg hu]
  · rw [if_neg hg]
    by_cases hu : (resolveIdentity proxyConfig store ip).1 ≠ ""
    · rw [if_pos hu, if_pos hu, getHeader_setHeader_self]
    · rw [if_neg hu, if_neg hu]

theorem getHeader_impGroup (proxyConfig : ProxyConfig) (store : Mappings)
    (ip : String) (h : Headers) :
    getHeader "Impersonate-Group" (setImpersonationHeaders proxyConfig store ip h) =
      if (resolveIdentity proxyConfig store ip).2.length > 0 then
        some (String.intercalate "," (resolveIdentity proxyConfig store ip).2)
      else getHeader "Impersonate-Group" h := by
  unfold setImpersonationHeaders setGroupHeader setUserHeader
  rw [getHeader_setHeader_ne _ _ _ (by decide), getHeader_setHeader_ne _ _ _ (by decide)]
  by_cases hg : (resolveIdentity proxyConfig store ip).2.length > 0
  · rw [if_pos hg, if_pos hg, getHeader_setHeader_self]
  · rw [if_neg hg, if_neg hg]
    by_cases hu : (resolveIdentity proxyConfig store ip).1 ≠ ""
    · rw [if_pos hu, getHeader_setHeader_ne _ _ _ (by decide)]
    · rw [if_neg hu]

theorem isForward_exists (r : MWResult) (hf : r.isForward = true) :
    ∃ h', r = .forward h' := by
  cases r with
  | abort s => simp [MWResult.isForward] at hf
  | forward h' => exact ⟨h', rfl⟩

theorem createAuthMiddleware_auth (config : RestConfig) (proxyConfig : ProxyConfig)
    (store : Mappings) (ip : String) (h : Headers) (hm : proxyConfig.Mode = AuthMode) :
    createAuthMiddleware config proxyConfig store ip h =
      attachUpstreamCredentials config (setImpersonationHeaders proxyConfig store ip h) := by
  unfold createAuthMiddleware
  rw [hm]
  rw [if_neg (by decide), if_pos rfl]

theorem createAuthMiddleware_noauth (config : RestConfig) (proxyConfig : ProxyConfig)
    (store : Mappings) (ip : String) (h : Headers) (hm : proxyConfig.Mode = NoAuthMode) :
    createAuthMiddleware config proxyConfig store ip h = attachUpstreamCredentials config h := by
  unfold createAuthMiddleware
  rw [hm, if_pos rfl]

/-! ## C1: auth-mode impersonation headers -/

/-- C1: in auth mode, whenever the middleware forwards, the forwarded
request carries `Impersonate-User` equal to the resolved user (set only
when non-empty, otherwise the inbound value is untouched) and
`Impersonate-Group` equal to the resolved groups joined by `","` (set
only when non-empty); the resolved identity is the store entry of the
client IP when one exists and the configured defaults otherwise. -/
theorem impersonation_headers_auth_mode (config : RestConfig) (proxyConfig : ProxyConfig)
    (store : Mappings) (ip : String) (h : Headers)
    (hm : proxyConfig.Mode = AuthMode)
    (hf : (createAuthMiddleware config proxyConfig store ip h).isForward = true) :
    (getHeader "Impersonate-User"
        (createAuthMiddleware config proxyConfig store ip h).forwardedHeaders =
      if (resolveIdentity proxyConfig store ip).1 ≠ "" then
        some (resolveIdentity proxyConfig store ip).1
      else getHeader "Impersonate-User" h)
    ∧ (getHeader "Impersonate-Group"
        (createAuthMiddleware config proxyConfig store ip h).forwardedHeaders =
      if (resolveIdentity proxyConfig store ip).2.length > 0 then
        some (String.intercalate "," (resolveIdentity proxyConfig store ip).2)
      else getHeader "Impersonate-Group" h)
    ∧ (∀ u g, store ip = some ⟨u, g⟩ → resolveIdentity proxyConfig store ip = (u, g))
    ∧ (store ip = none →
        resolveIdentity proxyConfig store ip =
          (proxyConfig.ImpersonateUser, proxyConfig.ImpersonateGroups)) := by
  rw [createAuthMiddleware_auth config proxyConfig store ip h hm] at hf ⊢
  obtain ⟨h', hfwd⟩ := isForward_exists _ hf
  rw [hfwd]
  have hU := attach_preserves_header config _ h' "Impersonate-User"
    (by decide) (by decide) hfwd
  have hG := attach_preserves_header config _ h' "Impersonate-Group"
    (by decide) (by decide) hfwd
  refine ⟨?_, ?_, ?_, ?_⟩
  · show getHeader "Impersonate-User" h' = _
    rw [hU, getHeader_impUser]
  · show getHeader "Impersonate-Group" h' = _
    rw [hG, getHeader_impGroup]
  · intro u g hst
    unfold resolveIdentity
    rw [hst]
  · intro hst
    unfold resolveIdentity
    rw [hst]

/-- Witness for C1: a mapped IP with `user="alice", groups=["g1","g2"]`
yields `Impersonate-User: alice` and `Impersonate-Group: g1,g2`. -/
theorem impersonation_headers_auth_mode_witness :
    getHeader "Impersonate-User"
      (createAuthMiddleware ⟨"tok", "", "", "", ""⟩ ⟨"auth", "wireguard-peer", ["wireguard-peers"]⟩
        (SetUserMapping "10.0.0.1" "alice" ["g1", "g2"] NewUserIPMap)
        "10.0.0.1" []).forwardedHeaders =
      (if (resolveIdentity ⟨"auth", "wireguard-peer", ["wireguard-peers"]⟩
            (SetUserMapping "10.0.0.1" "alice" ["g1", "g2"] NewUserIPMap) "10.0.0.1").1 ≠ "" then
        some (resolveIdentity ⟨"auth", "wireguard-peer", ["wireguard-peers"]⟩
          (SetUserMapping "10.0.0.1" "alice" ["g1", "g2"] NewUserIPMap) "10.0.0.1").1
      else getHeader "Impersonate-User" []) :=
  (impersonation_headers_auth_mode ⟨"tok", "", "", "", ""⟩
    ⟨"auth", "wireguard-peer", ["wireguard-peers"]⟩
    (SetUserMapping "10.0.0.1" "alice" ["g1", "g2"] NewUserIPMap)
    "10.0.0.1" [] rfl (by decide)).1

/-! ## C2: unknown proxy mode -/

/-- C2: under a mode that is neither `auth` nor `noauth` the middleware
aborts with HTTP 500 before attaching any header, and on every proxied
route the request is answered 500 and never reaches the upstream
forwarder. -/
theorem unknown_mode_aborts_500 (config : RestConfig) (proxyConfig : ProxyConfig)
    (store : Mappings) (route : Route) (method ip : String) (h : Headers)
    (hm1 : proxyConfig.Mode ≠ AuthMode) (hm2 : proxyConfig.Mode ≠ NoAuthMode) :
    createAuthMiddleware config proxyConfig store ip h = .abort 500
    ∧ handleRequest config proxyConfig store route method ip h = .errorResponse 500 := by
  have hmw : createAuthMiddleware config proxyConfig store ip h = .abort 500 := by
    unfold createAuthMiddleware
    rw [if_neg hm2, if_neg hm1]
  refine ⟨hmw, ?_⟩
  unfold handleRequest
  rw [hmw]

/-- Witness for C2: the mode string `"bogus"`. -/
theorem unknown_mode_aborts_500_witness :
    createAuthMiddleware ⟨"tok", "", "", "", ""⟩ ⟨"bogus", "", []⟩ NewUserIPMap "10.0.0.1" []
      = .abort 500
    ∧ handleRequest ⟨"tok", "", "", "", ""⟩ ⟨"bogus", "", []⟩ NewUserIPMap
        .api "GET" "10.0.0.1" [] = .errorResponse 500 :=
  unknown_mode_aborts_500 ⟨"tok", "", "", "", ""⟩ ⟨"bogus", "", []⟩ NewUserIPMap
    .api "GET" "10.0.0.1" [] (by decide) (by decide)

/-! ## C7: noauth mode adds no impersonation headers -/

/-- C7: in noauth mode the middleware's outcome does not depend on the
Identity Mapping Store at all — two runs under different store contents
produce identical results — and no header whose name starts with
`Impersonate-` is added or altered on the forwarded request. -/
theorem noauth_no_impersonation (config : RestConfig) (proxyConfig : ProxyConfig)
    (s1 s2 : Mappings) (ip : String) (h : Headers)
    (hm : proxyConfig.Mode = NoAuthMode) :
    createAuthMiddleware config proxyConfig s1 ip h
      = createAuthMiddleware config proxyConfig s2 ip h
    ∧ (∀ (h' : Headers) (name : String),
        createAuthMiddleware config proxyConfig s1 ip h = .forward h' →
        List.isPrefixOf "Impersonate-".toList name.toList = true →
        getHeader name h' = getHeader name h) := by
  refine ⟨?_, ?_⟩
  · rw [createAuthMiddleware_noauth config proxyConfig s1 ip h hm,
      createAuthMiddleware_noauth config proxyConfig s2 ip h hm]
  · intro h' name hfwd hpre
    rw [createAuthMiddleware_noauth config proxyConfig s1 ip h hm] at hfwd
    have hna : name ≠ "Authorization" := by
      intro hcontr
      rw [hcontr] at hpre
      exact absurd hpre (by decide)
    have hnu : name ≠ "User-Agent" := by
      intro hcontr
      rw [hcontr] at hpre
      exact absurd hpre (by decide)
    exact attach_preserves_header config h h' name hna hnu hfwd

/-- Witness for C7: the empty store and a store mapping the caller to
`alice` produce the same middleware outcome. -/
theorem noauth_no_impersonation_witness :
    createAuthMiddleware ⟨"tok", "", "", "", ""⟩ ⟨"noauth", "", []⟩ NewUserIPMap "10.0.0.1" []
      = createAuthMiddleware ⟨"tok", "", "", "", ""⟩ ⟨"noauth", "", []⟩
          (SetUserMapping "10.0.0.1" "alice" ["g1"] NewUserIPMap) "10.0.0.1" [] :=
  (noauth_no_impersonation ⟨"tok", "", "", "", ""⟩ ⟨"noauth", "", []⟩ NewUserIPMap
    (SetUserMapping "10.0.0.1" "alice" ["g1"] NewUserIPMap) "10.0.0.1" [] rfl).1

/-! ## C8: upstream credential attachment -/

theorem mode_check_reduces (config : RestConfig) (proxyConfig : ProxyConfig)
    (store : Mappings) (ip : String) (h : Headers)
    (hm : proxyConfig.Mode = AuthMode ∨ proxyConfig.Mode = NoAuthMode) :
    ∃ hmid, createAuthMiddleware config proxyConfig store ip h =
        attachUpstreamCredentials config hmid
      ∧ getHeader "Authorization" hmid = getHeader "Authorization" h := by
  cases hm with
  | inl ha =>
    refine ⟨setImpersonationHeaders proxyConfig store ip h, ?_, ?_⟩
    · exact createAuthMiddleware_auth config proxyConfig store ip h ha
    · exact setImpersonationHeaders_preserves proxyConfig store ip h "Authorization"
        (by decide) (by decide) (by decide) (by decide)
  | inr hn =>
    exact ⟨h, createAuthMiddleware_noauth config proxyConfig store ip h hn, rfl⟩

/-- C8: for every request that passes the mode check — bearer token
present: the forwarded `Authorization` is `Bearer {token}` (overwriting
any inbound value); else client-cert pair: no auth header is set (the
inbound `Authorization` value is forwarded untouched); else
username/password: HTTP Basic auth is set; else, when the inbound
request carries no `Authorization` header, the middleware aborts 401
and nothing is forwarded. -/
theorem credential_attachment_spec (config : RestConfig) (proxyConfig : ProxyConfig)
    (store : Mappings) (ip : String) (h : Headers)
    (hm : proxyConfig.Mode = AuthMode ∨ proxyConfig.Mode = NoAuthMode) :
    (config.BearerToken ≠ "" →
      ∃ h', createAuthMiddleware config proxyConfig store ip h = .forward h'
        ∧ getHeader "Authorization" h' = some ("Bearer " ++ config.BearerToken))
    ∧ (config.BearerToken = "" → config.CertFile ≠ "" → config.KeyFile ≠ "" →
      ∃ h', createAuthMiddleware config proxyConfig store ip h = .forward h'
        ∧ getHeader "Authorization" h' = getHeader "Authorization" h)
    ∧ (config.BearerToken = "" → ¬(config.CertFile ≠ "" ∧ config.KeyFile ≠ "") →
       config.Username ≠ "" → config.Password ≠ "" →
      ∃ h', createAuthMiddleware config proxyConfig store ip h = .forward h'
        ∧ getHeader "Authorization" h' =
            some ("Basic " ++ base64Encode (config.Username ++ ":" ++ config.Password)))
    ∧ (config.BearerToken = "" → ¬(config.CertFile ≠ "" ∧ config.KeyFile ≠ "") →
       ¬(config.Username ≠ "" ∧ config.Password ≠ "") →
       getHeaderD "Authorization" h = "" →
       createAuthMiddleware config proxyConfig store ip h = .abort 401) := by
  obtain ⟨hmid, heq, hpres⟩ := mode_check_reduces config proxyConfig store ip h hm
  rw [heq]
  refine ⟨?_, ?_, ?_, ?_⟩
  · intro hb
    have hrw : attachUpstreamCredentials config hmid =
        .forward (setHeader "User-Agent" "netmaker-k8s-proxy/1.0"
          (setHeader "Authorization" ("Bearer " ++ config.BearerToken) hmid)) := by
      unfold attachUpstreamCredentials
      rw [if_pos hb]
    rw [hrw]
    exact ⟨_, rfl, by rw [getHeader_setHeader_ne _ _ _ (by decide), getHeader_setHeader_self]⟩
  · intro hb hc hk
    have hrw : attachUpstreamCredentials config hmid =
        .forward (setHeader "User-Agent" "netmaker-k8s-proxy/1.0" hmid) := by
      unfold attachUpstreamCredentials
      rw [if_neg (by simp [hb]), if_pos ⟨hc, hk⟩]
    rw [hrw]
    refine ⟨_, rfl, ?_⟩
    rw [getHeader_setHeader_ne _ _ _ (by decide)]
    exact hpres
  · intro hb hcert hu hp
    have hrw : attachUpstreamCredentials config hmid =
        .forward (setHeader "User-Agent" "netmaker-k8s-proxy/1.0"
          (setHeader "Authorization"
            ("Basic " ++ base64Encode (config.Username ++ ":" ++ config.Password)) hmid)) := by
      unfold attachUpstreamCredentials
      rw [if_neg (by simp [hb]), if_neg hcert, if_pos ⟨hu, hp⟩]
    rw [hrw]
    exact ⟨_, rfl, by rw [getHeader_setHeader_ne _ _ _ (by decide), getHeader_setHeader_self]⟩
  · intro hb hcert hup hauth
    have hmida : getHeaderD "Authorization" hmid = "" := by
      rw [getHeaderD, hpres, ← getHeaderD]
      exact hauth
    unfold attachUpstreamCredentials
    rw [if_neg (by simp [hb]), if_neg hcert, if_neg hup, if_pos hmida]

/-- Witness for C8: a bearer token is attached as
`Authorization: Bearer tok`. -/
theorem credential_attachment_spec_witness :
    ∃ h', createAuthMiddleware ⟨"tok", "", "", "", ""⟩ ⟨"noauth", "", []⟩ NewUserIPMap
        "10.0.0.1" [] = .forward h'
      ∧ getHeader "Authorization" h' = some ("Bearer " ++ "tok") :=
  (credential_attachment_spec ⟨"tok", "", "", "", ""⟩ ⟨"noauth", "", []⟩ NewUserIPMap
    "10.0.0.1" [] (Or.inr rfl)).1 (by decide)

/-! ## C5: OPTIONS handling on proxied routes (corrected) -/

/-- Counterexample to C5 as stated: with a well-formed configuration
(noauth mode, bearer token), an OPTIONS request to `/version` is handed
to `proxy.ServeHTTP` — it is forwarded to the Kubernetes API server and
not short-circuited with a 200/CORS response. Only the `/api/*path` and
`/apis/*path` handlers test for OPTIONS. -/
theorem options_version_forwarded_counterexample :
    (handleRequest ⟨"tok", "", "", "", ""⟩ ⟨"noauth", "", []⟩ NewUserIPMap
        .version "OPTIONS" "10.0.0.1" []).isForwarded = true
    ∧ handleRequest ⟨"tok", "", "", "", ""⟩ ⟨"noauth", "", []⟩ NewUserIPMap
        .version "OPTIONS" "10.0.0.1" [] ≠ .corsOK (corsHeaders []) "" := by
  refine ⟨by decide, by decide⟩

/-- C5 (amended): an OPTIONS request to `/api/*` or `/apis/*` is never
forwarded upstream, and whenever the authentication middleware does not
abort it is answered 200 with the three CORS headers and an empty body;
an OPTIONS request to `/version` or `/metrics` is forwarded to the
upstream like any other method whenever the middleware forwards. -/
theorem options_shortcircuit_amended (config : RestConfig) (proxyConfig : ProxyConfig)
    (store : Mappings) (route : Route) (method ip : String) (h : Headers) :
    ((route = .api ∨ route = .apis) → method = "OPTIONS" →
      (handleRequest config proxyConfig store route method ip h).isForwarded = false
      ∧ (∀ h', createAuthMiddleware config proxyConfig store ip h = .forward h' →
          handleRequest config proxyConfig store route method ip h =
            .corsOK (corsHeaders []) ""))
    ∧ ((route = .version ∨ route = .metrics) →
        ∀ h', createAuthMiddleware config proxyConfig store ip h = .forward h' →
          handleRequest config proxyConfig store route method ip h = .forwarded h') := by
  constructor
  · intro hroute hmeth
    constructor
    · unfold handleRequest
      cases hmw : createAuthMiddleware config proxyConfig store ip h with
      | abort s => rfl
      | forward h' =>
        cases hroute with
        | inl ha => rw [ha]; simp [hmeth, PipelineOutcome.isForwarded]
        | inr ha => rw [ha]; simp [hmeth, PipelineOutcome.isForwarded]
    · intro h' hmw
      unfold handleRequest
      rw [hmw]
      cases hroute with
      | inl ha => rw [ha]; simp [hmeth]
      | inr ha => rw [ha]; simp [hmeth]
  · intro hroute h' hmw
    unfold handleRequest
    rw [hmw]
    cases hroute with
    | inl ha => rw [ha]
    | inr ha => rw [ha]

/-- Witness for C5 (amended): OPTIONS on `/api/*` under noauth mode with
a bearer token yields the CORS short-circuit. -/
theorem options_shortcircuit_amended_witness :
    (handleRequest ⟨"tok", "", "", "", ""⟩ ⟨"noauth", "", []⟩ NewUserIPMap
      .api "OPTIONS" "10.0.0.1" []).isForwarded = false :=
  ((options_shortcircuit_amended ⟨"tok", "", "", "", ""⟩ ⟨"noauth", "", []⟩ NewUserIPMap
    .api "OPTIONS" "10.0.0.1" []).1 (Or.inl rfl) rfl).1

/-! ## C3: interface locator retry behaviour -/

theorem delay_schedule_shift (b m attempt rem : Nat) :
    (if rem = 0 then [] else [min (b * attempt) m]) ++
      (List.range (rem - 1)).map (fun i => min (b * (attempt + 1 + i)) m) =
    (List.range rem).map (fun i => min (b * (attempt + i)) m) := by
  cases rem with
  | zero => simp
  | succ r =>
    rw [if_neg (Nat.succ_ne_zero r), Nat.succ_sub_one, List.range_succ_eq_map,
      List.map_cons, List.map_map, List.singleton_append]
    congr 1
    refine List.map_congr_left ?_
    intro i _
    simp only [Function.comp_apply]
    have harg : attempt + 1 + i = attempt + Nat.succ i := by omega
    rw [harg]

theorem locateGo_all_none (enum : Nat → List NetInterface) (interfaceName : String)
    (b m : Nat) :
    ∀ (rem attempt : Nat),
      (∀ k, k < rem → findIPInAttempt interfaceName (enum (attempt + k)) = none) →
      locateGo enum interfaceName b m rem attempt =
        ("", attempt + rem - 1,
          (List.range (rem - 1)).map (fun i => min (b * (attempt + i)) m)) := by
  intro rem
  induction rem with
  | zero =>
    intro attempt _
    simp [locateGo]
  | succ rem ih =>
    intro attempt hnone
    have h0 : findIPInAttempt interfaceName (enum attempt) = none := by
      have h00 := hnone 0 (Nat.succ_pos rem)
      simpa using h00
    have hshift : ∀ k, k < rem →
        findIPInAttempt interfaceName (enum (attempt + 1 + k)) = none := by
      intro k hk
      have hk1 := hnone (k + 1) (by omega)
      have harg : attempt + (k + 1) = attempt + 1 + k := by omega
      rwa [harg] at hk1
    simp only [locateGo, h0]
    rw [ih (attempt + 1) hshift]
    show ("", attempt + 1 + rem - 1,
        (if rem = 0 then [] else [min (b * attempt) m]) ++
          (List.range (rem - 1)).map (fun i => min (b * (attempt + 1 + i)) m)) =
      ("", attempt + (rem + 1) - 1,
        (List.range (rem + 1 - 1)).map (fun i => min (b * (attempt + i)) m))
    have h2 : attempt + 1 + rem - 1 = attempt + (rem + 1) - 1 := by omega
    have hdel := delay_schedule_shift b m attempt rem
    rw [h2, hdel]
    rfl

theorem locateGo_found (enum : Nat → List NetInterface) (interfaceName : String)
    (b m : Nat) :
    ∀ (j rem attempt : Nat) (ip : String),
      j < rem →
      (∀ i, i < j → findIPInAttempt interfaceName (enum (attempt + i)) = none) →
      findIPInAttempt interfaceName (enum (attempt + j)) = some ip →
      locateGo enum interfaceName b m rem attempt =
        (ip, attempt + j, (List.range j).map (fun i => min (b * (attempt + i)) m)) := by
  intro j
  induction j with
  | zero =>
    intro rem attempt ip hlt hnone hfound
    cases rem with
    | zero => omega
    | succ r =>
      rw [Nat.add_zero] at hfound
      simp [locateGo, hfound]
  | succ j ih =>
    intro rem attempt ip hlt hnone hfound
    cases rem with
    | zero => omega
    | succ r =>
      have h0 : findIPInAttempt interfaceName (enum attempt) = none := by
        have h00 := hnone 0 (Nat.succ_pos j)
        simpa using h00
      have hshift : ∀ i, i < j →
          findIPInAttempt interfaceName (enum (attempt + 1 + i)) = none := by
        intro i hi
        have hi1 := hnone (i + 1) (by omega)
        have harg : attempt + (i + 1) = attempt + 1 + i := by omega
        rwa [harg] at hi1
      have hfound' : findIPInAttempt interfaceName (enum (attempt + 1 + j)) = some ip := by
        have harg : attempt + 1 + j = attempt + (j + 1) := by omega
        rw [harg]
        exact hfound
      simp only [locateGo, h0]
      rw [ih r (attempt + 1) ip (by omega) hshift hfound']
      show (ip, attempt + 1 + j,
          (if r = 0 then [] else [min (b * attempt) m]) ++
            (List.range j).map (fun i => min (b * (attempt + 1 + i)) m)) =
        (ip, attempt + (j + 1),
          (List.range (j + 1)).map (fun i => min (b * (attempt + i)) m))
      have hr0 : ¬(r = 0) := by omega
      rw [if_neg hr0]
      have h2 : attempt + 1 + j = attempt + (j + 1) := by omega
      have hdel := delay_schedule_shift b m attempt (j + 1)
      rw [if_neg (Nat.succ_ne_zero j), Nat.succ_sub_one] at hdel
      rw [h2, hdel]

/-- C3: the locator never errors (by type it returns a string). If no
attempt's enumeration exhibits the named interface with a valid
(IPNet, IPv4, non-loopback, non-unspecified) address, exactly
`maxRetries` attempts are made, the result is `""`, and the sleeps are
`min(baseDelay*k, maxDelay)` for `k = 1 .. maxRetries-1` — none before
the first attempt, none after the last; if attempt `j+1` is the first
whose enumeration exhibits such an address, the first such address is
returned after exactly `j+1` attempts with sleeps
`min(baseDelay*k, maxDelay)` for `k = 1 .. j`. -/
theorem locate_retry_spec (enum : Nat → List NetInterface) (interfaceName : String)
    (maxRetries baseDelay maxDelay : Nat) :
    ((∀ k, k < maxRetries → findIPInAttempt interfaceName (enum (1 + k)) = none) →
      getWireGuardInterfaceIP enum interfaceName maxRetries baseDelay maxDelay =
        ("", maxRetries,
          (List.range (maxRetries - 1)).map (fun i => min (baseDelay * (1 + i)) maxDelay)))
    ∧ (∀ j ip, j < maxRetries →
        (∀ i, i < j → findIPInAttempt interfaceName (enum (1 + i)) = none) →
        findIPInAttempt interfaceName (enum (1 + j)) = some ip →
        getWireGuardInterfaceIP enum interfaceName maxRetries baseDelay maxDelay =
          (ip, 1 + j,
            (List.range j).map (fun i => min (baseDelay * (1 + i)) maxDelay))) := by
  constructor
  · intro hnone
    unfold getWireGuardInterfaceIP
    rw [locateGo_all_none enum interfaceName baseDelay maxDelay maxRetries 1 hnone]
    have harith : 1 + maxRetries - 1 = maxRetries := by omega
    rw [harith]
  · intro j ip hlt hnone hfound
    unfold getWireGuardInterfaceIP
    rw [locateGo_found enum interfaceName baseDelay maxDelay j maxRetries 1 ip hlt hnone hfound]

/-- Witness for C3: an enumeration that never reports the interface,
two retries: result `""`, two attempts, one sleep of `min(3*1, 30)`. -/
theorem locate_retry_spec_witness :
    getWireGuardInterfaceIP (fun _ => []) "netmaker" 2 3 30 =
      ("", 2, (List.range (2 - 1)).map (fun i => min (3 * (1 + i)) 30)) :=
  (locate_retry_spec (fun _ => []) "netmaker" 2 3 30).1 (by decide)

end NetmakerProxy
